import Mathlib

/-!
Verification of the spectrum-based fault-localization core of the
python-debugger repository (CoverageCollector / SpectrumDebugger /
ContinuousSpectrumDebugger / TarantulaDebugger).

The Python code is shallowly embedded:
* an `Event` is a `(function-name, line-number)` pair, as produced by
  `CoverageCollector.events`;
* a Python function object is modelled by `Func`: its `__name__` together
  with a numeric `id` standing for object identity (reference equality);
* a `CoverageCollector` carries the mutable per-session record
  (`_coverage`, `_generated_function_cache`, `_function`, `_args`,
  `_argstring`, `items_to_ignore`, `original_trace_function`);
* the engine (`SpectrumDebugger.collectors`, a Python `dict` from outcome
  string to list of collectors) is an insertion-ordered association list;
* Python `float` arithmetic on run fractions is modelled by exact `ℚ`
  (all claims proved concern exact values 0, 1 and the [0,1] bounds,
  which hold for both);
* a raised Python exception is modelled by `Except String`;
* the process-global `sys.settrace` slot is a one-field state record
  threaded explicitly through `__enter__`/`__exit__`.
-/

/-- An observed event: `(function __name__, line number)`, the element type
of `CoverageCollector.events()`. -/
abbrev Event := String × Nat

/-- A Python function object: its `__name__` plus a numeric stand-in for
object identity (two `Func`s with equal `id` model the same reference). -/
structure Func where
  name : String
  id : Nat
deriving DecidableEq

/-- A code object (`frame.f_code`): name, `co_firstlineno`, object identity,
and whether `FunctionType(code, ...)` succeeds (no `TypeError`). -/
structure Code where
  name : String
  firstlineno : Nat
  id : Nat
  reinstantiable : Bool
deriving DecidableEq

/-- A stack frame at trace-event time. `binding` abstracts the result of
`search_func(f_code.co_name, frame)` (the nearest enclosing callable bound
to the frame's code name); `selfClasses` lists the class names (with
ancestors) of `f_locals["self"]` when present, so that
`isinstance(f_locals["self"], C)` is membership of `C`; `locals` is the
rendered `f_locals` snapshot used for the first-call argument record. -/
structure Frame where
  code : Code
  lineno : Nat
  binding : Option Func
  selfClasses : List String
  locals : List (String × String)
deriving DecidableEq

/-- An entry of `items_to_ignore`: either a class or a plain callable. -/
inductive IgnoreItem where
  | typ (className : String)
  | fn (fname : String)
deriving DecidableEq

/-- The trace-event kinds dispatched by `sys.settrace`. -/
inductive EventKind where
  | call
  | line
  | ret
deriving DecidableEq

/-- The per-session mutable state of a `CoverageCollector` instance. -/
structure CoverageCollector where
  coverage : List (Func × Nat) := []
  cache : List ((String × Nat) × Func) := []
  nextId : Nat := 1
  firstFunction : Option Func := none
  firstArgs : Option (List (String × String)) := none
  firstArgstring : Option String := none
  itemsToIgnore : List IgnoreItem := [IgnoreItem.typ "CoverageCollector"]
  originalTrace : Option Nat := none
deriving DecidableEq

/-- `CoverageCollector.events()`: the coverage locations projected to
`(func.__name__, lineno)` pairs (a Python set; here a list used only
through membership). -/
def events (c : CoverageCollector) : List Event :=
  c.coverage.map (fun fl => (fl.1.name, fl.2))

/-- The shared placeholder returned when `FunctionType` raises
(`self.unknown`, one object per collector; identity 0 is reserved for it). -/
def unknownFunc : Func := ⟨"unknown", 0⟩

/-- `StackInspector.create_function`: memoized synthesis of a function
object from a frame.  Faithful to the source, the cache key is
`(frame.f_code.co_name, frame.f_lineno)` — the frame's *current* line,
not the code object's starting line.  A fresh `id` models the fresh
`FunctionType` object; unsuitable code falls back to the shared
`unknownFunc`.  The result is stored in the cache on every path. -/
def create_function (s : CoverageCollector) (fr : Frame) :
    CoverageCollector × Func :=
  let key := (fr.code.name, fr.lineno)
  match s.cache.find? (fun kv => kv.1 == key) with
  | some kv => (s, kv.2)
  | none =>
      let f : Func :=
        if fr.code.reinstantiable then ⟨fr.code.name, s.nextId⟩ else unknownFunc
      ({ s with cache := s.cache ++ [(key, f)], nextId := s.nextId + 1 }, f)

/-- `CoverageCollector.collect`: resolve the frame's function
(`search_func` result if any, else `create_function`) and add
`(function, frame.f_lineno)` to the coverage set.  The event kind and
argument are ignored by the source, so they are not parameters here. -/
def collect (s : CoverageCollector) (fr : Frame) : CoverageCollector :=
  let res := match fr.binding with
    | some f => (s, f)
    | none => create_function s fr
  let loc := (res.2, fr.lineno)
  { res.1 with coverage :=
      if loc ∈ res.1.coverage then res.1.coverage else res.1.coverage ++ [loc] }

/-- One `items_to_ignore` entry versus one frame, as checked inside
`CoverageCollector.traceit`: a class matches if `f_locals["self"]` is an
instance of it, and any item additionally matches when its `__name__`
equals the frame's code name. -/
def matchesIgnore (it : IgnoreItem) (fr : Frame) : Bool :=
  match it with
  | .typ cn => cn ∈ fr.selfClasses || cn == fr.code.name
  | .fn n => n == fr.code.name

/-- `Tracer.our_frame`: `f_locals["self"]` is an instance of the
collector's own class. -/
def our_frame (fr : Frame) : Bool :=
  "CoverageCollector" ∈ fr.selfClasses

/-- `", ".join(f"{var}={repr(value)}")` over the first call's locals. -/
def renderArgs (l : List (String × String)) : String :=
  String.intercalate ", " (l.map (fun p => p.1 ++ "=" ++ p.2))

/-- `CoverageCollector.traceit`: skip ignored frames; on the first
qualifying `call` event record the synthesized function and the argument
snapshot; forward every qualifying event to `collect`. -/
def traceit (s : CoverageCollector) (fr : Frame) (ev : EventKind) :
    CoverageCollector :=
  if s.itemsToIgnore.any (fun it => matchesIgnore it fr) then s
  else
    let s1 :=
      if s.firstFunction.isNone && (ev == EventKind.call) then
        let res := create_function s fr
        { res.1 with
            firstFunction := some res.2,
            firstArgs := some fr.locals,
            firstArgstring := some (renderArgs fr.locals) }
      else s
    collect s1 fr

/-- `Tracer._traceit`, the installed dispatcher: never trace the
collector's own frames, otherwise delegate to `traceit`. -/
def traceit_dispatch (s : CoverageCollector) (fr : Frame) (ev : EventKind) :
    CoverageCollector :=
  if our_frame fr then s else traceit s fr ev

/-- Run the dispatcher over a whole recorded stream of trace events. -/
def run_trace (s : CoverageCollector) (tr : List (Frame × EventKind)) :
    CoverageCollector :=
  tr.foldl (fun s p => traceit_dispatch s p.1 p.2) s

/-- A frame the dispatcher actually records: not one of the collector's
own frames, and not excluded by `items_to_ignore`. -/
def qualifies (items : List IgnoreItem) (fr : Frame) : Bool :=
  !our_frame fr && !(items.any (fun it => matchesIgnore it fr))

/-- The information carried by a propagating exception: the frames of its
traceback (as walked by `traceback.walk_tb`). -/
structure ExcInfo where
  traceback : List Frame
deriving DecidableEq

/-- `Tracer.is_internal_error`: false when no exception; otherwise true
iff some traceback frame belongs to the tracing machinery itself. -/
def is_internal_error (exc : Option ExcInfo) : Bool :=
  match exc with
  | none => false
  | some i => i.traceback.any our_frame

/-- The process-wide `sys.settrace` slot (`None` or the identity of the
installed callback). -/
structure TraceSlot where
  slot : Option Nat
deriving DecidableEq

/-- `CoverageCollector.__enter__`: save the current global trace callback
into the collector and install this collector's dispatcher (identified by
`tid`). -/
def collector_enter (w : TraceSlot) (c : CoverageCollector) (tid : Nat) :
    TraceSlot × CoverageCollector :=
  (⟨some tid⟩, { c with originalTrace := w.slot })

/-- The value computed by the body of `CoverageCollector.__exit__` after
the `sys.settrace` restore: `.ok (some false)` / `.ok none` model the
Python returns `False` / `None`, and `.error` models the `ValueError("No
call collected")` raise. -/
def collector_exit_status (c : CoverageCollector) (exc : Option ExcInfo) :
    Except String (Option Bool) :=
  let ret : Option Bool := if is_internal_error exc then some false else none
  if c.firstFunction.isNone then
    if exc.isSome then Except.ok (some false)
    else Except.error "No call collected"
  else Except.ok ret

/-- `CoverageCollector.__exit__`: its first statement restores the saved
trace callback, unconditionally; only then is the status computed, so the
returned slot is `⟨c.originalTrace⟩` on every path, raising included. -/
def collector_exit (w : TraceSlot) (c : CoverageCollector)
    (exc : Option ExcInfo) : TraceSlot × Except String (Option Bool) :=
  (⟨c.originalTrace⟩, collector_exit_status c exc)

/-- Outcome labels are the Python strings used by the engine. -/
def PASS : String := "PASS"

/-- Outcome label of failing runs. -/
def FAIL : String := "FAIL"

/-- The engine's `self.collectors` dict: an insertion-ordered association
list from outcome string to the list of collectors filed under it. -/
structure EngineState where
  collectors : List (String × List CoverageCollector)
deriving DecidableEq

/-- A freshly constructed engine: empty dict. -/
def emptyEngine : EngineState := ⟨[]⟩

/-- `SpectrumDebugger.add_collector`: create the outcome's list on first
use, then append — one append per completed session, nothing removed. -/
def add_collector (S : EngineState) (o : String) (c : CoverageCollector) :
    EngineState :=
  if (S.collectors.find? (fun p => p.1 == o)).isSome then
    ⟨S.collectors.map (fun p => if p.1 == o then (p.1, p.2 ++ [c]) else p)⟩
  else
    ⟨S.collectors ++ [(o, [c])]⟩

/-- Every collector filed in the engine, in dict-then-list order (the
iteration order of the nested loops in the source). -/
def all_collectors (S : EngineState) : List CoverageCollector :=
  S.collectors.flatMap (fun p => p.2)

/-- How a `with debugger:` block ends, seen from the caller. -/
inductive SessionResult where
  /-- `__exit__` returned `True`: the outcome was recorded and any
  exception from the block is suppressed. -/
  | filed (outcome : String)
  /-- `__exit__` returned a falsy value while an exception was active:
  the original exception propagates unmodified. -/
  | reraised
  /-- `__exit__` itself raised (the `ValueError("No call collected")`). -/
  | exitError (msg : String)
  /-- `__exit__` returned a falsy value with no active exception. -/
  | completed
deriving DecidableEq

/-- `SpectrumDebugger.__exit__` combined with Python's `with`-statement
semantics: delegate to the collector's `__exit__`; a non-`None` status
re-raises (internal error); otherwise classify PASS/FAIL from the
exception state, file the collector and suppress the exception. -/
def debugger_exit (w : TraceSlot) (S : EngineState) (c : CoverageCollector)
    (exc : Option ExcInfo) : TraceSlot × EngineState × SessionResult :=
  let res := collector_exit w c exc
  match res.2 with
  | Except.error m => (res.1, S, SessionResult.exitError m)
  | Except.ok (some _) =>
      (res.1, S, if exc.isSome then SessionResult.reraised
                 else SessionResult.completed)
  | Except.ok none =>
      let o := if exc.isSome then FAIL else PASS
      (res.1, add_collector S o c, SessionResult.filed o)

/-- `ContinuousSpectrumDebugger.event_fraction`: fraction of the
collectors filed under `o` whose events contain `e`; `0.0` when the
outcome key is absent from the dict. -/
def event_fraction (S : EngineState) (e : Event) (o : String) : ℚ :=
  match S.collectors.find? (fun p => p.1 == o) with
  | none => 0
  | some p =>
      ((p.2.countP (fun c => decide (e ∈ events c))) : ℚ) / ((p.2.length : ℚ))

/-- `ContinuousSpectrumDebugger.hue`: `passed/(passed+failed)` when the
event was seen at all, else `None`. -/
def hue (S : EngineState) (e : Event) : Option ℚ :=
  let p := event_fraction S e PASS
  let f := event_fraction S e FAIL
  if p + f > 0 then some (p / (p + f)) else none

/-- `ContinuousSpectrumDebugger.suspiciousness`: `1 - hue` when defined. -/
def suspiciousness (S : EngineState) (e : Event) : Option ℚ :=
  (hue S e).map (fun h => 1 - h)

/-- `SpectrumDebugger.all_events()` with the outcome omitted: the union of
`events()` over every filed collector (a Python set; here a deduplicated
list). -/
def all_events (S : EngineState) : List Event :=
  ((all_collectors S).flatMap events).dedup

/-- The sort key `susp` used inside `TarantulaDebugger.rank` (the source
asserts definedness before unwrapping; `getD 0` is only ever reached on
defined values in reachable states, as proved below). -/
def susp (S : EngineState) (e : Event) : ℚ :=
  (suspiciousness S e).getD 0

/-- `TarantulaDebugger.rank`: all observed events sorted by descending
suspiciousness (the source's stable `list.sort(key=susp, reverse=True)`;
tie order is not part of the contract). -/
def rank (S : EngineState) : List Event :=
  (all_events S).insertionSort (fun a b => susp S b ≤ susp S a)

/-- `CoverageCollector.function()`: the first-call function, or a raised
`ValueError` when no call was collected. -/
def collector_function (c : CoverageCollector) : Except String Func :=
  match c.firstFunction with
  | none => Except.error "No call collected"
  | some f => Except.ok f

/-- `CoverageCollector.args()`: the source tests `if not self._args`, so
both an unset snapshot and an empty (falsy) dict raise. -/
def collector_args (c : CoverageCollector) :
    Except String (List (String × String)) :=
  match c.firstArgs with
  | none => Except.error "No call collected"
  | some d => if d.isEmpty then Except.error "No call collected"
              else Except.ok d

/-- `CoverageCollector.argstring()`: likewise, unset or empty (falsy)
string raises. -/
def collector_argstring (c : CoverageCollector) : Except String String :=
  match c.firstArgstring with
  | none => Except.error "No call collected"
  | some s => if s.isEmpty then Except.error "No call collected"
              else Except.ok s

/-- The loop body of `SpectrumDebugger.function()`: walk the filed
collectors, query each one's first-call function (which may raise), and
keep the first function object seen for each new name. -/
def entry_functions : List CoverageCollector → List String →
    Except String (List Func)
  | [], _ => Except.ok []
  | c :: rest, seen =>
    match collector_function c with
    | Except.error m => Except.error m
    | Except.ok f =>
        if f.name ∈ seen then entry_functions rest seen
        else (entry_functions rest (f.name :: seen)).map (fun fs => f :: fs)

/-- `SpectrumDebugger.function()`: `None` unless exactly one distinct
name was collected. -/
def debugger_function (S : EngineState) : Except String (Option Func) :=
  (entry_functions (all_collectors S) []).map
    (fun fs => match fs with
               | [f] => some f
               | _ => none)

/-- First-occurrence deduplication relative to an already-seen list;
mirrors the `names_seen` bookkeeping of `SpectrumDebugger.function()`. -/
def dedup_keeping_first : List String → List String → List String
  | [], _ => []
  | n :: rest, seen =>
      if n ∈ seen then dedup_keeping_first rest seen
      else n :: dedup_keeping_first rest (n :: seen)

/-- The distinct first-call names across all filed collectors, in
encounter order. -/
def entry_names (S : EngineState) : List String :=
  dedup_keeping_first
    ((all_collectors S).filterMap (fun c => c.firstFunction.map Func.name)) []

/-- The collectors filed under an outcome (empty when the key is absent). -/
def collectors_under (S : EngineState) (o : String) :
    List CoverageCollector :=
  ((S.collectors.find? (fun p => p.1 == o)).map (fun p => p.2)).getD []

/-- Engine states built only by `add_collector` (any outcome label, as
`collect`/`collect_pass`/`collect_fail` and session exit allow). -/
inductive ReachableAny : EngineState → Prop where
  | empty : ReachableAny emptyEngine
  | add (S : EngineState) (o : String) (c : CoverageCollector) :
      ReachableAny S → ReachableAny (add_collector S o c)

/-- Engine states reachable by filing completed sessions: every filing
uses the PASS or FAIL label. -/
inductive Reachable : EngineState → Prop where
  | empty : Reachable emptyEngine
  | add (S : EngineState) (o : String) (c : CoverageCollector) :
      Reachable S → (o = PASS ∨ o = FAIL) → Reachable (add_collector S o c)

/-- The dict invariant maintained by `add_collector`: keys are unique and
every present key owns a non-empty list. -/
def EngineInv (S : EngineState) : Prop :=
  (S.collectors.map Prod.fst).Nodup ∧ ∀ p ∈ S.collectors, p.2 ≠ []

/-- Session filing additionally keeps every key PASS or FAIL. -/
def SessionInv (S : EngineState) : Prop :=
  EngineInv S ∧ ∀ p ∈ S.collectors, p.1 = PASS ∨ p.1 = FAIL

/-- A collector that covered line 3 of `f` and recorded a first call. -/
def cW1 : CoverageCollector :=
  { coverage := [(⟨"f", 1⟩, 3)], firstFunction := some ⟨"f", 1⟩ }

/-- A collector that covered line 2 of `f`. -/
def cW2 : CoverageCollector :=
  { coverage := [(⟨"f", 2⟩, 2)], firstFunction := some ⟨"f", 2⟩ }

/-- A two-session engine: one FAIL run covering `("f",3)`, one PASS run
covering `("f",2)`. -/
def W1 : EngineState :=
  add_collector (add_collector emptyEngine FAIL cW1) PASS cW2

/-- A single PASS collector covering `("g", 7)`. -/
def cW4 : CoverageCollector :=
  { coverage := [(⟨"g", 1⟩, 7)], firstFunction := some ⟨"g", 1⟩ }

/-- An engine with one collector filed under PASS and nothing under FAIL. -/
def W4 : EngineState := add_collector emptyEngine PASS cW4

/-- A failing collector covering lines 3 and 4 of `f`. -/
def cW3a : CoverageCollector :=
  { coverage := [(⟨"f", 1⟩, 3), (⟨"f", 1⟩, 4)],
    firstFunction := some ⟨"f", 1⟩ }

/-- A passing collector covering line 3 of `f`. -/
def cW3b : CoverageCollector :=
  { coverage := [(⟨"f", 2⟩, 3)], firstFunction := some ⟨"f", 2⟩ }

/-- A two-session engine for ranking: FAIL covers lines 3,4; PASS covers
line 3. -/
def W3 : EngineState :=
  add_collector (add_collector emptyEngine FAIL cW3a) PASS cW3b

/-- A session whose first call hit a function named `f`. -/
def cW8a : CoverageCollector :=
  { coverage := [(⟨"f", 1⟩, 3)], firstFunction := some ⟨"f", 1⟩ }

/-- A session whose first call hit a function named `g`. -/
def cW8b : CoverageCollector :=
  { coverage := [(⟨"g", 2⟩, 9)], firstFunction := some ⟨"g", 2⟩ }

/-- Two sessions on two differently-named top-level functions. -/
def W8 : EngineState :=
  add_collector (add_collector emptyEngine PASS cW8a) PASS cW8b

/-- A freshly constructed collector, as handed out by
`SpectrumDebugger.collect_pass` and never run. -/
def cW10 : CoverageCollector := {}

/-- An engine that filed the unexecuted collector under PASS. -/
def W10 : EngineState := add_collector emptyEngine PASS cW10

/-- A frame of the traced program (no tracer `self` local). -/
def plainFrame : Frame :=
  { code := ⟨"g", 1, 11, true⟩, lineno := 2, binding := none,
    selfClasses := [], locals := [] }

/-- A frame inside the tracer itself (`self` is a `CoverageCollector`). -/
def tracerFrame : Frame :=
  { code := ⟨"collect", 150, 12, true⟩, lineno := 153, binding := none,
    selfClasses := ["CoverageCollector"], locals := [] }

/-- An exception raised by the traced program. -/
def plainExc : ExcInfo := ⟨[plainFrame]⟩

/-- An exception whose traceback passes through tracer frames. -/
def internalExc : ExcInfo := ⟨[plainFrame, tracerFrame]⟩

/-- `create_function` applied in sequence over arbitrary further frames
(the cache of the owning collector only ever grows). -/
def resolve_all (s : CoverageCollector) (frs : List Frame) :
    CoverageCollector :=
  frs.foldl (fun s fr => (create_function s fr).1) s

/-- An empty frame with a given code object and current line, used by the
C7 input states. -/
def mkFrame (cd : Code) (ln : Nat) : Frame :=
  { code := cd, lineno := ln, binding := none, selfClasses := [],
    locals := [] }

/-- A code object for a function `f` defined at line 10. -/
def codeC7 : Code := ⟨"f", 10, 77, true⟩

/-- `f`'s frame while executing its `def` line. -/
def frameC7a : Frame := mkFrame codeC7 10

/-- The *same* code object's frame one line later. -/
def frameC7b : Frame := mkFrame codeC7 11

/-- A different code object, also named `f`, resolved at line 10. -/
def frameC7c : Frame := mkFrame ⟨"f", 20, 99, true⟩ 10

/-- A collector fresh out of `__init__`. -/
def emptyCollector : CoverageCollector := {}

/-- The traced program's frame for `g` at line 2, carrying a binding for
`g` found in the enclosing scope. -/
def frameW9 : Frame :=
  { code := ⟨"g", 1, 21, true⟩, lineno := 2, binding := some ⟨"g", 5⟩,
    selfClasses := [], locals := [] }

lemma keys_add_collector (S : EngineState) (o : String)
    (c : CoverageCollector) :
    ((add_collector S o c).collectors.map Prod.fst) =
      if (S.collectors.find? (fun p => p.1 == o)).isSome then
        S.collectors.map Prod.fst
      else S.collectors.map Prod.fst ++ [o] := by
  unfold add_collector
  split
  · simp only [List.map_map]
    refine List.map_congr_left (fun p _ => ?_)
    by_cases h : p.1 = o <;> simp [h]
  · simp

lemma engineInv_add (S : EngineState) (o : String) (c : CoverageCollector)
    (h : EngineInv S) : EngineInv (add_collector S o c) := by
  obtain ⟨hnd, hne⟩ := h
  constructor
  · rw [keys_add_collector]
    split
    · exact hnd
    · next hfind =>
      rw [List.nodup_append]
      refine ⟨hnd, List.nodup_singleton o, ?_⟩
      intro a ha hb
      simp only [List.mem_singleton] at hb
      subst hb
      simp only [List.mem_map] at ha
      obtain ⟨p, hp, hpa⟩ := ha
      rw [Option.isSome_iff_exists] at hfind
      push_neg at hfind
      have := List.find?_eq_none.mp (Option.eq_none_iff_forall_not_mem.mpr
        (fun x hx => hfind x hx)) p hp
      simp only [beq_iff_eq] at this
      exact this hpa
  · intro p hp
    unfold add_collector at hp
    split at hp
    · simp only [List.mem_map] at hp
      obtain ⟨q, hq, hqp⟩ := hp
      by_cases h : q.1 == o
      · simp only [h, if_pos] at hqp
        subst hqp
        simp
      · simp only [h] at hqp
        simp only [Bool.false_eq_true, if_false] at hqp
        subst hqp
        exact hne q hq
    · simp only [List.mem_append, List.mem_singleton] at hp
      rcases hp with hp | hp
      · exact hne p hp
      · subst hp
        simp

lemma reachableAny_inv {S : EngineState} (h : ReachableAny S) :
    EngineInv S := by
  induction h with
  | empty => exact ⟨List.nodup_nil, by simp [emptyEngine]⟩
  | add S o c _ ih => exact engineInv_add S o c ih

lemma sessionKeys_add (S : EngineState) (o : String) (c : CoverageCollector)
    (ho : o = PASS ∨ o = FAIL)
    (h : ∀ p ∈ S.collectors, p.1 = PASS ∨ p.1 = FAIL) :
    ∀ p ∈ (add_collector S o c).collectors, p.1 = PASS ∨ p.1 = FAIL := by
  intro p hp
  unfold add_collector at hp
  split at hp
  · simp only [List.mem_map] at hp
    obtain ⟨q, hq, hqp⟩ := hp
    by_cases hb : q.1 == o
    · simp only [hb, if_pos] at hqp
      subst hqp
      exact h q hq
    · simp only [hb, Bool.false_eq_true, if_false] at hqp
      subst hqp
      exact h q hq
  · simp only [List.mem_append, List.mem_singleton] at hp
    rcases hp with hp | hp
    · exact h p hp
    · subst hp
      exact ho

lemma reachable_inv {S : EngineState} (h : Reachable S) : SessionInv S := by
  induction h with
  | empty =>
      exact ⟨⟨List.nodup_nil, by simp [emptyEngine]⟩, by simp [emptyEngine]⟩
  | add S o c _ ho ih =>
      exact ⟨engineInv_add S o c ih.1, sessionKeys_add S o c ho ih.2⟩

/-- With unique keys, `find?` retrieves exactly the entry holding a key. -/
lemma find?_of_mem_nodup {β : Type} (ps : List (String × β))
    (hnd : (ps.map Prod.fst).Nodup) (o : String) (l : β)
    (hm : (o, l) ∈ ps) : ps.find? (fun p => p.1 == o) = some (o, l) := by
  induction ps with
  | nil => cases hm
  | cons a rest ih =>
      simp only [List.map_cons, List.nodup_cons] at hnd
      rcases List.mem_cons.mp hm with h | h
      · subst h
        exact List.find?_cons_of_pos _ (by simp)
      · have hne : ¬((fun p => p.1 == o) a = true) := by
          simp only [beq_iff_eq]
          intro he
          exact hnd.1 (he ▸ (List.mem_map.mpr ⟨(o, l), h, rfl⟩))
        exact (List.find?_cons_of_neg rest hne).trans (ih hnd.2 h)

lemma event_fraction_nonneg (S : EngineState) (e : Event) (o : String) :
    0 ≤ event_fraction S e o := by
  unfold event_fraction
  split
  · exact le_refl 0
  · exact div_nonneg (by positivity) (by positivity)

lemma event_fraction_le_one (S : EngineState) (e : Event) (o : String) :
    event_fraction S e o ≤ 1 := by
  unfold event_fraction
  split
  · exact zero_le_one
  · next p _ =>
      rcases Nat.eq_zero_or_pos p.2.length with hz | hpos
      · simp [hz]
      · rw [div_le_one (by exact_mod_cast hpos)]
        exact_mod_cast List.countP_le_length _

lemma event_fraction_pos_of_observed (S : EngineState) (e : Event)
    (o : String) (l : List CoverageCollector) (c : CoverageCollector)
    (hfind : S.collectors.find? (fun p => p.1 == o) = some (o, l))
    (hc : c ∈ l) (he : e ∈ events c) : 0 < event_fraction S e o := by
  unfold event_fraction
  rw [hfind]
  have hcount : 0 < l.countP (fun c => decide (e ∈ events c)) :=
    List.countP_pos_iff.mpr ⟨c, hc, by simpa using he⟩
  have hlen : 0 < l.length := List.length_pos_of_mem hc
  exact div_pos (by exact_mod_cast hcount) (by exact_mod_cast hlen)

lemma observed_of_event_fraction_pos (S : EngineState) (e : Event)
    (o : String) (h : 0 < event_fraction S e o) :
    ∃ c ∈ all_collectors S, e ∈ events c := by
  unfold event_fraction at h
  split at h
  · exact absurd h (lt_irrefl 0)
  · next p hfind =>
      have hcount : 0 < p.2.countP (fun c => decide (e ∈ events c)) := by
        by_contra hc
        push_neg at hc
        interval_cases h' : p.2.countP (fun c => decide (e ∈ events c)) <;>
          simp_all
      obtain ⟨c, hc, hce⟩ := List.countP_pos_iff.mp hcount
      refine ⟨c, ?_, by simpa using hce⟩
      exact List.mem_flatMap.mpr ⟨p, List.mem_of_find?_eq_some hfind, hc⟩

/-- In a session-reachable state, an event seen by any filed collector has
a positive fraction in that collector's bucket, hence defined hue. -/
lemma observed_hue_defined {S : EngineState} (hS : Reachable S)
    (e : Event) (c : CoverageCollector) (hc : c ∈ all_collectors S)
    (he : e ∈ events c) :
    0 < event_fraction S e PASS + event_fraction S e FAIL := by
  obtain ⟨⟨hnd, _⟩, hkeys⟩ := reachable_inv hS
  obtain ⟨p, hp, hcp⟩ := List.mem_flatMap.mp hc
  have hfind : S.collectors.find? (fun q => q.1 == p.1) = some (p.1, p.2) :=
    find?_of_mem_nodup S.collectors hnd p.1 p.2 hp
  have hpos := event_fraction_pos_of_observed S e p.1 p.2 c hfind hcp he
  rcases hkeys p hp with h | h
  · rw [h] at hpos
    have := event_fraction_nonneg S e FAIL
    linarith
  · rw [h] at hpos
    have := event_fraction_nonneg S e PASS
    linarith

lemma hue_of_pos (S : EngineState) (e : Event)
    (h : 0 < event_fraction S e PASS + event_fraction S e FAIL) :
    hue S e = some (event_fraction S e PASS /
      (event_fraction S e PASS + event_fraction S e FAIL)) := by
  unfold hue
  rw [if_pos h]

lemma hue_of_nonpos (S : EngineState) (e : Event)
    (h : ¬ 0 < event_fraction S e PASS + event_fraction S e FAIL) :
    hue S e = none := by
  unfold hue
  rw [if_neg h]

/-- C1: `suspiciousness(e)` is defined iff `e` was observed in at least one
filed run; with `passed`/`failed` the PASS/FAIL event fractions, it is
`None` when `passed + failed == 0` and otherwise
`1 - passed/(passed+failed)`, which lies in [0,1], is exactly 1 when
`failed = 1` and `passed = 0`, and exactly 0 when `failed = 0` and
`passed = 1`. -/
theorem suspiciousness_spec (S : EngineState) (hS : Reachable S)
    (e : Event) :
    (event_fraction S e PASS + event_fraction S e FAIL = 0 →
      suspiciousness S e = none) ∧
    (event_fraction S e PASS + event_fraction S e FAIL ≠ 0 →
      suspiciousness S e = some (1 - event_fraction S e PASS /
        (event_fraction S e PASS + event_fraction S e FAIL))) ∧
    (∀ v : ℚ, suspiciousness S e = some v → 0 ≤ v ∧ v ≤ 1) ∧
    ((suspiciousness S e ≠ none) ↔ ∃ c ∈ all_collectors S, e ∈ events c) ∧
    (event_fraction S e FAIL = 1 → event_fraction S e PASS = 0 →
      suspiciousness S e = some 1) ∧
    (event_fraction S e FAIL = 0 → event_fraction S e PASS = 1 →
      suspiciousness S e = some 0) := by
  have hp0 := event_fraction_nonneg S e PASS
  have hf0 := event_fraction_nonneg S e FAIL
  refine ⟨?_, ?_, ?_, ?_, ?_, ?_⟩
  · intro h
    rw [suspiciousness, hue_of_nonpos S e (by rw [h]; exact lt_irrefl 0)]
    rfl
  · intro h
    have hpos : 0 < event_fraction S e PASS + event_fraction S e FAIL :=
      lt_of_le_of_ne (by linarith) (Ne.symm h)
    rw [suspiciousness, hue_of_pos S e hpos]
    rfl
  · intro v hv
    rw [suspiciousness] at hv
    rcases hh : hue S e with _ | h
    · rw [hh] at hv
      cases hv
    · rw [hh] at hv
      rw [show Option.map (fun h => 1 - h) (some h) = some (1 - h) from rfl]
        at hv
      have hpos : 0 < event_fraction S e PASS + event_fraction S e FAIL := by
        by_contra hc
        rw [hue_of_nonpos S e hc] at hh
        cases hh
      rw [hue_of_pos S e hpos] at hh
      have hhval : h = event_fraction S e PASS /
          (event_fraction S e PASS + event_fraction S e FAIL) := by
        injection hh with h'
        exact h'.symm
      have h1 : 0 ≤ h := hhval ▸ div_nonneg hp0 (le_of_lt hpos)
      have h2 : h ≤ 1 := by
        rw [hhval, div_le_one hpos]
        linarith
      injection hv with hv'
      rw [← hv']
      constructor <;> linarith
  · constructor
    · intro h
      have hpos : 0 < event_fraction S e PASS + event_fraction S e FAIL := by
        by_contra hc
        rw [suspiciousness, hue_of_nonpos S e hc] at h
        exact h rfl
      rcases lt_or_le 0 (event_fraction S e PASS) with hp | hp
      · exact observed_of_event_fraction_pos S e PASS hp
      · have hf : 0 < event_fraction S e FAIL := by linarith
        exact observed_of_event_fraction_pos S e FAIL hf
    · rintro ⟨c, hc, he⟩
      have hpos := observed_hue_defined hS e c hc he
      rw [suspiciousness, hue_of_pos S e hpos]
      simp
  · intro hf hp
    have hpos : 0 < event_fraction S e PASS + event_fraction S e FAIL := by
      rw [hf, hp]; norm_num
    rw [suspiciousness, hue_of_pos S e hpos, hf, hp]
    norm_num
  · intro hf hp
    have hpos : 0 < event_fraction S e PASS + event_fraction S e FAIL := by
      rw [hf, hp]; norm_num
    rw [suspiciousness, hue_of_pos S e hpos, hf, hp]
    norm_num

theorem suspiciousness_spec_witness :
    Reachable W1 ∧
    ((event_fraction W1 ("f", 3) PASS + event_fraction W1 ("f", 3) FAIL = 0 →
       suspiciousness W1 ("f", 3) = none) ∧
     (event_fraction W1 ("f", 3) PASS + event_fraction W1 ("f", 3) FAIL ≠ 0 →
       suspiciousness W1 ("f", 3) =
         some (1 - event_fraction W1 ("f", 3) PASS /
           (event_fraction W1 ("f", 3) PASS +
             event_fraction W1 ("f", 3) FAIL))) ∧
     (∀ v : ℚ, suspiciousness W1 ("f", 3) = some v → 0 ≤ v ∧ v ≤ 1) ∧
     ((suspiciousness W1 ("f", 3) ≠ none) ↔
       ∃ c ∈ all_collectors W1, ("f", 3) ∈ events c) ∧
     (event_fraction W1 ("f", 3) FAIL = 1 →
       event_fraction W1 ("f", 3) PASS = 0 →
       suspiciousness W1 ("f", 3) = some 1) ∧
     (event_fraction W1 ("f", 3) FAIL = 0 →
       event_fraction W1 ("f", 3) PASS = 1 →
       suspiciousness W1 ("f", 3) = some 0)) := by
  have hreach : Reachable W1 :=
    Reachable.add _ PASS cW2
      (Reachable.add _ FAIL cW1 Reachable.empty (Or.inr rfl)) (Or.inl rfl)
  exact ⟨hreach, suspiciousness_spec W1 hreach ("f", 3)⟩

/-- C4: `event_fraction(e, o)` is the number of collectors filed under `o`
whose events contain `e`, divided by the total number filed under `o`; it
always lies in [0,1]; and it is `0.0`, returned normally, whenever no
collectors are filed under `o` (absent dict key). -/
theorem event_fraction_spec (S : EngineState) (hS : ReachableAny S)
    (e : Event) (o : String) :
    event_fraction S e o =
      ((collectors_under S o).countP (fun c => decide (e ∈ events c)) : ℚ) /
        ((collectors_under S o).length : ℚ) ∧
    0 ≤ event_fraction S e o ∧
    event_fraction S e o ≤ 1 ∧
    (collectors_under S o = [] → event_fraction S e o = 0) := by
  refine ⟨?_, event_fraction_nonneg S e o, event_fraction_le_one S e o, ?_⟩
  · unfold event_fraction collectors_under
    split
    · next hfind => rw [hfind]; simp
    · next p hfind => rw [hfind]; rfl
  · intro hempty
    unfold event_fraction
    unfold collectors_under at hempty
    split
    · rfl
    · next p hfind =>
        rw [hfind] at hempty
        have h2 : p.2 = [] := by simpa using hempty
        rw [h2]
        simp

theorem event_fraction_spec_witness :
    ReachableAny W4 ∧
    (event_fraction W4 ("g", 7) FAIL =
       ((collectors_under W4 FAIL).countP
           (fun c => decide (("g", 7) ∈ events c)) : ℚ) /
         ((collectors_under W4 FAIL).length : ℚ) ∧
     0 ≤ event_fraction W4 ("g", 7) FAIL ∧
     event_fraction W4 ("g", 7) FAIL ≤ 1 ∧
     (collectors_under W4 FAIL = [] →
       event_fraction W4 ("g", 7) FAIL = 0)) := by
  have hreach : ReachableAny W4 :=
    ReachableAny.add _ PASS cW4 ReachableAny.empty
  exact ⟨hreach, event_fraction_spec W4 hreach ("g", 7) FAIL⟩

/-- C3: `rank()` contains exactly the elements of `all_events()` with no
duplicates, is sorted by descending suspiciousness (tie order
unconstrained), and in every state reachable by filing sessions the
internal assertion never fires: every ranked event has defined
suspiciousness. -/
theorem rank_spec (S : EngineState) (hS : Reachable S) :
    (∀ e, e ∈ rank S ↔ e ∈ all_events S) ∧
    (rank S).Nodup ∧
    (rank S).Pairwise (fun a b => susp S b ≤ susp S a) ∧
    (∀ e ∈ all_events S, suspiciousness S e ≠ none) := by
  have hperm : (rank S).Perm (all_events S) :=
    List.perm_insertionSort _ _
  refine ⟨fun e => hperm.mem_iff, ?_, ?_, ?_⟩
  · exact (List.Perm.nodup_iff hperm).mpr (List.nodup_dedup _)
  · haveI : IsTotal Event (fun a b => susp S b ≤ susp S a) :=
      ⟨fun a b => le_total (susp S b) (susp S a)⟩
    haveI : IsTrans Event (fun a b => susp S b ≤ susp S a) :=
      ⟨fun _ _ _ h1 h2 => le_trans h2 h1⟩
    exact List.sorted_insertionSort _ _
  · intro e he
    rw [all_events, List.mem_dedup, List.mem_flatMap] at he
    obtain ⟨c, hc, hce⟩ := he
    have hpos := observed_hue_defined hS e c hc hce
    rw [suspiciousness, hue_of_pos S e hpos]
    simp

theorem rank_spec_witness :
    Reachable W3 ∧
    ((∀ e, e ∈ rank W3 ↔ e ∈ all_events W3) ∧
     (rank W3).Nodup ∧
     (rank W3).Pairwise (fun a b => susp W3 b ≤ susp W3 a) ∧
     (∀ e ∈ all_events W3, suspiciousness W3 e ≠ none)) := by
  have hreach : Reachable W3 :=
    Reachable.add _ PASS cW3b
      (Reachable.add _ FAIL cW3a Reachable.empty (Or.inr rfl)) (Or.inl rfl)
  exact ⟨hreach, rank_spec W3 hreach⟩

lemma entry_functions_names (cs : List CoverageCollector) (seen : List String)
    (h : ∀ c ∈ cs, (c.firstFunction).isSome = true) :
    ∃ fs, entry_functions cs seen = Except.ok fs ∧
      fs.map Func.name = dedup_keeping_first
        (cs.filterMap (fun c => c.firstFunction.map Func.name)) seen := by
  induction cs generalizing seen with
  | nil => exact ⟨[], rfl, rfl⟩
  | cons c rest ih =>
      obtain ⟨f, hf⟩ := Option.isSome_iff_exists.mp (h c (List.mem_cons_self _ _))
      have hrest : ∀ c ∈ rest, (c.firstFunction).isSome = true :=
        fun c hc => h c (List.mem_cons_of_mem _ hc)
      by_cases hseen : f.name ∈ seen
      · obtain ⟨fs, hok, hnames⟩ := ih seen hrest
        refine ⟨fs, ?_, ?_⟩
        · rw [entry_functions, collector_function, hf]
          simp only [hseen, if_pos]
          exact hok
        · rw [hnames]
          simp [List.filterMap_cons, hf, dedup_keeping_first, hseen]
      · obtain ⟨fs, hok, hnames⟩ := ih (f.name :: seen) hrest
        refine ⟨f :: fs, ?_, ?_⟩
        · rw [entry_functions, collector_function, hf]
          simp only [hseen, if_neg, if_false]
          rw [hok]
          rfl
        · rw [List.map_cons, hnames]
          simp [List.filterMap_cons, hf, dedup_keeping_first, hseen]

lemma entry_functions_error (cs : List CoverageCollector) (seen : List String)
    (h : ∃ c ∈ cs, c.firstFunction = none) :
    entry_functions cs seen = Except.error "No call collected" := by
  induction cs generalizing seen with
  | nil => simp at h
  | cons c rest ih =>
      obtain ⟨c', hc', hnone⟩ := h
      rcases List.mem_cons.mp hc' with rfl | hmem
      · rw [entry_functions, collector_function, hnone]
      · rcases hcf : c.firstFunction with _ | f
        · rw [entry_functions, collector_function, hcf]
        · rw [entry_functions, collector_function, hcf]
          by_cases hseen : f.name ∈ seen
          · simp only [hseen, if_pos]
            exact ih seen ⟨c', hmem, hnone⟩
          · simp only [hseen, if_neg, if_false]
            rw [ih (f.name :: seen) ⟨c', hmem, hnone⟩]
            rfl

/-- C8: when every filed collector recorded a first call, the engine-level
entry query returns normally; it is `None` unless exactly one distinct
first-call name was observed, and with a single distinct name it returns a
function carrying that name. -/
theorem debugger_function_spec (S : EngineState)
    (h : ∀ c ∈ all_collectors S, (c.firstFunction).isSome = true) :
    ((entry_names S).length ≠ 1 → debugger_function S = Except.ok none) ∧
    (∀ n, entry_names S = [n] →
      ∃ f, debugger_function S = Except.ok (some f) ∧ f.name = n) := by
  obtain ⟨fs, hok, hnames⟩ := entry_functions_names (all_collectors S) [] h
  have hen : entry_names S = fs.map Func.name := by
    rw [entry_names, hnames]
  constructor
  · intro hne
    rw [debugger_function, hok]
    match fs, hen with
    | [], _ => rfl
    | [f], hen => exact absurd (by rw [hen]; rfl) hne
    | f1 :: f2 :: t, _ => rfl
  · intro n hn
    rw [hen] at hn
    cases fs with
    | nil => cases hn
    | cons f t =>
        cases t with
        | nil =>
            refine ⟨f, ?_, ?_⟩
            · rw [debugger_function, hok]
              rfl
            · simpa using hn
        | cons f2 t2 => simp at hn

theorem debugger_function_spec_witness :
    (∀ c ∈ all_collectors W8, (c.firstFunction).isSome = true) ∧
    (((entry_names W8).length ≠ 1 → debugger_function W8 = Except.ok none) ∧
     (∀ n, entry_names W8 = [n] →
       ∃ f, debugger_function W8 = Except.ok (some f) ∧ f.name = n)) :=
  ⟨by decide, debugger_function_spec W8 (by decide)⟩

/-- The ambiguous two-name engine indeed answers `None` (not an error). -/
theorem ambiguous_entry_query_answers_none :
    debugger_function W8 = Except.ok none := by rfl

/-- C10: a collector with no recorded first call raises
`ValueError("No call collected")` from `function()`, `args()` and
`argstring()`; and an engine holding such a collector (filed out-of-band
via `collect`/`collect_pass`/`collect_fail`, never executed) makes the
engine-level entry query raise instead of returning `None`. -/
theorem no_call_queries_raise (c : CoverageCollector) (S : EngineState)
    (hf : c.firstFunction = none) (ha : c.firstArgs = none)
    (hs : c.firstArgstring = none) (hmem : c ∈ all_collectors S) :
    collector_function c = Except.error "No call collected" ∧
    collector_args c = Except.error "No call collected" ∧
    collector_argstring c = Except.error "No call collected" ∧
    debugger_function S = Except.error "No call collected" := by
  refine ⟨?_, ?_, ?_, ?_⟩
  · rw [collector_function, hf]
  · rw [collector_args, ha]
  · rw [collector_argstring, hs]
  · rw [debugger_function,
      entry_functions_error (all_collectors S) [] ⟨c, hmem, hf⟩]
    rfl

theorem no_call_queries_raise_witness :
    (cW10.firstFunction = none ∧ cW10.firstArgs = none ∧
     cW10.firstArgstring = none ∧ cW10 ∈ all_collectors W10) ∧
    (collector_function cW10 = Except.error "No call collected" ∧
     collector_args cW10 = Except.error "No call collected" ∧
     collector_argstring cW10 = Except.error "No call collected" ∧
     debugger_function W10 = Except.error "No call collected") :=
  ⟨⟨rfl, rfl, rfl, by decide⟩,
   no_call_queries_raise cW10 W10 rfl rfl rfl (by decide)⟩

/-- C6: the global trace-callback slot saved at `__enter__` is restored by
`__exit__` on every exit path — through the collector exit directly and
through the full debugger exit, for any exception state, first-call state
and engine state — so after exit the slot holds exactly what was
installed before entry. -/
theorem trace_slot_restored (w : TraceSlot) (c : CoverageCollector)
    (tid : Nat) (S : EngineState) (exc : Option ExcInfo) :
    (collector_exit (collector_enter w c tid).1 (collector_enter w c tid).2
        exc).1 = w ∧
    (debugger_exit (collector_enter w c tid).1 S
        (collector_enter w c tid).2 exc).1 = w := by
  constructor
  · rfl
  · rw [debugger_exit]
    split
    · rfl
    · rfl
    · rfl

/-- C5: a session whose collector never observed a qualifying call files
no PASS/FAIL outcome on any exit path; when the block additionally ended
without a fault, session exit raises `ValueError("No call collected")`
instead of recording a PASS. -/
theorem no_call_never_filed (w : TraceSlot) (S : EngineState)
    (c : CoverageCollector) (h : c.firstFunction = none) :
    ((debugger_exit w S c none).2 =
      (S, SessionResult.exitError "No call collected")) ∧
    (∀ exc : Option ExcInfo, (debugger_exit w S c exc).2.1 = S) ∧
    (∀ (exc : Option ExcInfo) (o : String),
      (debugger_exit w S c exc).2.2 ≠ SessionResult.filed o) := by
  have hnone : c.firstFunction.isNone = true := by rw [h]; rfl
  refine ⟨?_, ?_, ?_⟩
  · rw [debugger_exit, collector_exit, collector_exit_status]
    simp [hnone, is_internal_error]
  · intro exc
    rw [debugger_exit, collector_exit, collector_exit_status]
    rcases exc with _ | i
    · simp [hnone, is_internal_error]
    · simp [hnone]
  · intro exc o
    rw [debugger_exit, collector_exit, collector_exit_status]
    rcases exc with _ | i
    · simp [hnone, is_internal_error]
    · simp [hnone]

theorem no_call_never_filed_witness :
    (cW10.firstFunction = none) ∧
    (((debugger_exit ⟨none⟩ emptyEngine cW10 none).2 =
       (emptyEngine, SessionResult.exitError "No call collected")) ∧
     (∀ exc : Option ExcInfo,
       (debugger_exit ⟨none⟩ emptyEngine cW10 exc).2.1 = emptyEngine) ∧
     (∀ (exc : Option ExcInfo) (o : String),
       (debugger_exit ⟨none⟩ emptyEngine cW10 exc).2.2 ≠
         SessionResult.filed o)) :=
  ⟨rfl, no_call_never_filed ⟨none⟩ emptyEngine cW10 rfl⟩

/-- C2, counterexample: a block that raises a genuine (non-internal) fault
before any qualifying call was observed.  The claim says the collector is
then filed under FAIL with the fault swallowed; the code instead re-raises
the fault and files nothing (`CoverageCollector.__exit__` returns `False`
when `self._function` is unset and `exc_tp` is set). -/
theorem session_outcome_cex :
    is_internal_error (some plainExc) = false ∧
    (debugger_exit ⟨none⟩ emptyEngine cW10 (some plainExc)).2.2 =
      SessionResult.reraised ∧
    (debugger_exit ⟨none⟩ emptyEngine cW10 (some plainExc)).2.1 =
      emptyEngine := by
  refine ⟨rfl, rfl, rfl⟩

/-- C2 (amended): for every session in which a qualifying call *was*
observed: a block raising no fault files the collector under PASS; a block
raising a non-internal fault files it under FAIL with the fault swallowed;
a fault whose traceback includes a tracer-internal frame is re-raised
unmodified with nothing filed.  (A session with no qualifying call never
files: it raises `No call collected` without a fault and re-raises the
fault otherwise — see the C5 theorem and the counterexample above.) -/
theorem session_outcome_spec (w : TraceSlot) (S : EngineState)
    (c : CoverageCollector) (hcall : c.firstFunction.isSome = true) :
    ((debugger_exit w S c none).2 =
      (add_collector S PASS c, SessionResult.filed PASS)) ∧
    (∀ i : ExcInfo, is_internal_error (some i) = false →
      (debugger_exit w S c (some i)).2 =
        (add_collector S FAIL c, SessionResult.filed FAIL)) ∧
    (∀ i : ExcInfo, is_internal_error (some i) = true →
      (debugger_exit w S c (some i)).2 = (S, SessionResult.reraised)) := by
  have hne : c.firstFunction.isNone = false := by
    rcases hcf : c.firstFunction with _ | f
    · rw [hcf] at hcall
      cases hcall
    · rfl
  refine ⟨?_, ?_, ?_⟩
  · rw [debugger_exit, collector_exit, collector_exit_status]
    simp [hne, is_internal_error]
  · intro i hi
    rw [debugger_exit, collector_exit, collector_exit_status]
    simp [hne, hi]
  · intro i hi
    rw [debugger_exit, collector_exit, collector_exit_status]
    simp [hne, hi]

theorem session_outcome_spec_witness :
    (cW1.firstFunction.isSome = true) ∧
    (((debugger_exit ⟨none⟩ emptyEngine cW1 none).2 =
       (add_collector emptyEngine PASS cW1, SessionResult.filed PASS)) ∧
     (∀ i : ExcInfo, is_internal_error (some i) = false →
       (debugger_exit ⟨none⟩ emptyEngine cW1 (some i)).2 =
         (add_collector emptyEngine FAIL cW1, SessionResult.filed FAIL)) ∧
     (∀ i : ExcInfo, is_internal_error (some i) = true →
       (debugger_exit ⟨none⟩ emptyEngine cW1 (some i)).2 =
         (emptyEngine, SessionResult.reraised))) :=
  ⟨rfl, session_outcome_spec ⟨none⟩ emptyEngine cW1 rfl⟩

lemma create_function_lookup (s : CoverageCollector) (fr : Frame) :
    ((create_function s fr).1).cache.find?
        (fun kv => kv.1 == (fr.code.name, fr.lineno)) =
      some ((fr.code.name, fr.lineno), (create_function s fr).2) := by
  rcases hfind : s.cache.find? (fun kv => kv.1 == (fr.code.name, fr.lineno))
      with _ | kv
  · rw [create_function]
    simp only [hfind]
    rw [List.find?_append, hfind]
    simp
  · have h1 : kv.1 = (fr.code.name, fr.lineno) := by
      have := List.find?_some hfind
      simpa using this
    rw [create_function]
    simp only [hfind]
    rw [← h1]

lemma create_function_cache_mono (s : CoverageCollector) (fr : Frame)
    (key : String × Nat) (v : (String × Nat) × Func)
    (h : s.cache.find? (fun kv => kv.1 == key) = some v) :
    ((create_function s fr).1).cache.find? (fun kv => kv.1 == key) =
      some v := by
  rcases hfind : s.cache.find? (fun kv => kv.1 == (fr.code.name, fr.lineno))
      with _ | kv
  · rw [create_function]
    simp only [hfind]
    rw [List.find?_append, h]
    rfl
  · rw [create_function]
    simp only [hfind]
    exact h

lemma resolve_all_cache_mono (s : CoverageCollector) (frs : List Frame)
    (key : String × Nat) (v : (String × Nat) × Func)
    (h : s.cache.find? (fun kv => kv.1 == key) = some v) :
    (resolve_all s frs).cache.find? (fun kv => kv.1 == key) = some v := by
  induction frs generalizing s with
  | nil => exact h
  | cons fr rest ih =>
      exact ih (create_function s fr).1 (create_function_cache_mono s fr key v h)

/-- C7, counterexample: the cache key is `(name, frame.f_lineno)` — the
current line — not the code object's starting line, so resolving the very
same code object at two different lines returns two distinct (not
reference-equal) synthesized function objects. -/
theorem create_function_not_code_keyed :
    frameC7a.code = frameC7b.code ∧
    (create_function (create_function emptyCollector frameC7a).1
        frameC7b).2 ≠
      (create_function emptyCollector frameC7a).2 := by
  refine ⟨rfl, ?_⟩
  decide

/-- C7 (amended): synthesized units are memoized by
`(name, current line at resolution time)` for the life of the owning
collector: any two resolutions that agree on the frame's code name and
reported line return the identical unit object, no matter how many other
resolutions happen in between — but resolutions of one code object at
*different* reported lines may return distinct objects (see the
counterexample). -/
theorem create_function_memoized (s : CoverageCollector)
    (fr1 fr2 : Frame) (frs : List Frame)
    (hname : fr2.code.name = fr1.code.name)
    (hline : fr2.lineno = fr1.lineno) :
    (create_function (resolve_all (create_function s fr1).1 frs) fr2).2 =
      (create_function s fr1).2 := by
  have hkey := create_function_lookup s fr1
  have hpers := resolve_all_cache_mono (create_function s fr1).1 frs
    (fr1.code.name, fr1.lineno)
    ((fr1.code.name, fr1.lineno), (create_function s fr1).2) hkey
  rw [create_function, hname, hline, hpers]

theorem create_function_memoized_witness :
    (frameC7c.code.name = frameC7a.code.name ∧
     frameC7c.lineno = frameC7a.lineno) ∧
    (create_function (resolve_all (create_function emptyCollector
        frameC7a).1 [frameC7b]) frameC7c).2 =
      (create_function emptyCollector frameC7a).2 :=
  ⟨⟨rfl, rfl⟩,
   create_function_memoized emptyCollector frameC7a frameC7c [frameC7b]
     rfl rfl⟩

lemma create_function_coverage (s : CoverageCollector) (fr : Frame) :
    ((create_function s fr).1).coverage = s.coverage := by
  rw [create_function]
  rcases hfind : s.cache.find? (fun kv => kv.1 == (fr.code.name, fr.lineno))
      with _ | kv <;> simp [hfind]

lemma create_function_items (s : CoverageCollector) (fr : Frame) :
    ((create_function s fr).1).itemsToIgnore = s.itemsToIgnore := by
  rw [create_function]
  rcases hfind : s.cache.find? (fun kv => kv.1 == (fr.code.name, fr.lineno))
      with _ | kv <;> simp [hfind]

lemma collect_coverage_eq (s : CoverageCollector) (fr : Frame) :
    ∃ f, (collect s fr).coverage =
      (if ((f : Func), fr.lineno) ∈ s.coverage then s.coverage
       else s.coverage ++ [(f, fr.lineno)]) := by
  rw [collect]
  rcases hb : fr.binding with _ | f
  · exact ⟨(create_function s fr).2, by
      simp only [hb, create_function_coverage]⟩
  · exact ⟨f, by simp only [hb]⟩

lemma collect_mem (s : CoverageCollector) (fr : Frame) :
    ∀ loc ∈ s.coverage, loc ∈ (collect s fr).coverage := by
  intro loc hloc
  obtain ⟨f, hcov⟩ := collect_coverage_eq s fr
  rw [hcov]
  split
  · exact hloc
  · exact List.mem_append_left _ hloc

lemma collect_adds (s : CoverageCollector) (fr : Frame) :
    ∃ f, ((f : Func), fr.lineno) ∈ (collect s fr).coverage := by
  obtain ⟨f, hcov⟩ := collect_coverage_eq s fr
  refine ⟨f, ?_⟩
  rw [hcov]
  split
  · next h => exact h
  · exact List.mem_append_right _ (List.mem_singleton_self _)

lemma collect_len (s : CoverageCollector) (fr : Frame) :
    s.coverage.length ≤ (collect s fr).coverage.length := by
  obtain ⟨f, hcov⟩ := collect_coverage_eq s fr
  rw [hcov]
  split
  · exact le_refl _
  · simp

lemma collect_items (s : CoverageCollector) (fr : Frame) :
    (collect s fr).itemsToIgnore = s.itemsToIgnore := by
  rw [collect]
  rcases hb : fr.binding with _ | f
  · simp only [hb, create_function_items]
  · simp only [hb]

lemma traceit_mem (s : CoverageCollector) (fr : Frame) (ev : EventKind) :
    ∀ loc ∈ s.coverage, loc ∈ (traceit s fr ev).coverage := by
  intro loc hloc
  rw [traceit]
  split
  · exact hloc
  · split
    · refine collect_mem _ fr loc ?_
      simpa [create_function_coverage] using hloc
    · exact collect_mem s fr loc hloc

lemma traceit_len (s : CoverageCollector) (fr : Frame) (ev : EventKind) :
    s.coverage.length ≤ (traceit s fr ev).coverage.length := by
  rw [traceit]
  split
  · exact le_refl _
  · split
    · refine le_trans ?_ (collect_len _ fr)
      simp [create_function_coverage]
    · exact collect_len s fr

lemma traceit_items (s : CoverageCollector) (fr : Frame) (ev : EventKind) :
    (traceit s fr ev).itemsToIgnore = s.itemsToIgnore := by
  rw [traceit]
  split
  · rfl
  · split
    · rw [collect_items]
      simp [create_function_items]
    · exact collect_items s fr

lemma dispatch_mem (s : CoverageCollector) (fr : Frame) (ev : EventKind) :
    ∀ loc ∈ s.coverage, loc ∈ (traceit_dispatch s fr ev).coverage := by
  intro loc hloc
  rw [traceit_dispatch]
  split
  · exact hloc
  · exact traceit_mem s fr ev loc hloc

lemma dispatch_len (s : CoverageCollector) (fr : Frame) (ev : EventKind) :
    s.coverage.length ≤ (traceit_dispatch s fr ev).coverage.length := by
  rw [traceit_dispatch]
  split
  · exact le_refl _
  · exact traceit_len s fr ev

lemma dispatch_items (s : CoverageCollector) (fr : Frame) (ev : EventKind) :
    (traceit_dispatch s fr ev).itemsToIgnore = s.itemsToIgnore := by
  rw [traceit_dispatch]
  split
  · rfl
  · exact traceit_items s fr ev

lemma run_trace_mem (s : CoverageCollector) (tr : List (Frame × EventKind)) :
    ∀ loc ∈ s.coverage, loc ∈ (run_trace s tr).coverage := by
  induction tr generalizing s with
  | nil => exact fun loc h => h
  | cons p rest ih =>
      intro loc hloc
      exact ih (traceit_dispatch s p.1 p.2) loc (dispatch_mem s p.1 p.2 loc hloc)

lemma run_trace_len (s : CoverageCollector) (tr : List (Frame × EventKind)) :
    s.coverage.length ≤ (run_trace s tr).coverage.length := by
  induction tr generalizing s with
  | nil => exact le_refl _
  | cons p rest ih =>
      exact le_trans (dispatch_len s p.1 p.2) (ih (traceit_dispatch s p.1 p.2))

lemma run_trace_items (s : CoverageCollector)
    (tr : List (Frame × EventKind)) :
    (run_trace s tr).itemsToIgnore = s.itemsToIgnore := by
  induction tr generalizing s with
  | nil => rfl
  | cons p rest ih =>
      rw [run_trace, List.foldl_cons]
      exact ((ih (traceit_dispatch s p.1 p.2)).trans (dispatch_items s p.1 p.2))

lemma run_trace_append (s : CoverageCollector)
    (a b : List (Frame × EventKind)) :
    run_trace s (a ++ b) = run_trace (run_trace s a) b := by
  rw [run_trace, run_trace, run_trace, List.foldl_append]

/-- C9: during a single traced execution the coverage set only grows — no
step removes a recorded event, the number of recorded locations is
non-decreasing across every prefix of the event stream — and any
qualifying event in the stream leaves its `(unit, line)` location in the
final coverage. -/
theorem coverage_monotone_spec (s : CoverageCollector)
    (l1 l2 : List (Frame × EventKind)) (fr : Frame) (ev : EventKind)
    (hq : qualifies s.itemsToIgnore fr = true) :
    (∀ loc ∈ s.coverage,
       loc ∈ (run_trace s (l1 ++ (fr, ev) :: l2)).coverage) ∧
    (∀ pre suf, l1 ++ (fr, ev) :: l2 = pre ++ suf →
       (run_trace s pre).coverage.length ≤
           (run_trace s (l1 ++ (fr, ev) :: l2)).coverage.length ∧
       ∀ loc ∈ (run_trace s pre).coverage,
         loc ∈ (run_trace s (l1 ++ (fr, ev) :: l2)).coverage) ∧
    (∃ f : Func,
       (f, fr.lineno) ∈ (run_trace s (l1 ++ (fr, ev) :: l2)).coverage) := by
  refine ⟨?_, ?_, ?_⟩
  · exact run_trace_mem s _
  · intro pre suf hsplit
    rw [hsplit, run_trace_append]
    exact ⟨run_trace_len _ _, run_trace_mem _ _⟩
  · have hq' : qualifies (run_trace s l1).itemsToIgnore fr = true := by
      rw [run_trace_items]
      exact hq
    rw [qualifies, Bool.and_eq_true, Bool.not_eq_true',
      Bool.not_eq_true'] at hq'
    have hstep : run_trace s (l1 ++ (fr, ev) :: l2) =
        run_trace (traceit_dispatch (run_trace s l1) fr ev) l2 := by
      rw [show l1 ++ (fr, ev) :: l2 = (l1 ++ [(fr, ev)]) ++ l2 from by simp,
        run_trace_append, run_trace_append]
      rfl
    rw [hstep]
    set smid := run_trace s l1 with hmid
    have hdisp : traceit_dispatch smid fr ev = traceit smid fr ev := by
      rw [traceit_dispatch, hq'.1]
      simp
    rw [hdisp, traceit, hq'.2]
    simp only [Bool.false_eq_true, if_false]
    split
    · obtain ⟨f, hf⟩ := collect_adds _ fr
      exact ⟨f, run_trace_mem _ l2 _ hf⟩
    · obtain ⟨f, hf⟩ := collect_adds smid fr
      exact ⟨f, run_trace_mem _ l2 _ hf⟩

theorem coverage_monotone_spec_witness :
    (qualifies emptyCollector.itemsToIgnore frameW9 = true) ∧
    ((∀ loc ∈ emptyCollector.coverage,
        loc ∈ (run_trace emptyCollector
          ([(frameW9, EventKind.call)] ++ (frameW9, EventKind.line) ::
            [])).coverage) ∧
     (∀ pre suf,
        [(frameW9, EventKind.call)] ++ (frameW9, EventKind.line) :: [] =
          pre ++ suf →
        (run_trace emptyCollector pre).coverage.length ≤
            (run_trace emptyCollector
              ([(frameW9, EventKind.call)] ++ (frameW9, EventKind.line) ::
                [])).coverage.length ∧
        ∀ loc ∈ (run_trace emptyCollector pre).coverage,
          loc ∈ (run_trace emptyCollector
            ([(frameW9, EventKind.call)] ++ (frameW9, EventKind.line) ::
              [])).coverage) ∧
     (∃ f : Func,
        (f, frameW9.lineno) ∈ (run_trace emptyCollector
          ([(frameW9, EventKind.call)] ++ (frameW9, EventKind.line) ::
            [])).coverage)) :=
  ⟨by decide,
   coverage_monotone_spec emptyCollector [(frameW9, EventKind.call)] []
     frameW9 EventKind.line (by decide)⟩
